import Mathlib

/-!
# Verification of the 360spyne scene-synthesis and compositing engine

Shallow embedding of the Python modules `background.py`, `shadows.py`,
`reflection.py` and `composite.py` (directory `apps/api/python/`).

Modelling conventions:
* `numpy` images are embedded as `Grid3` (RGB, three channels) and `Grid1`
  (single channel) — a height, a width, and a total pixel function; all
  pixel arithmetic is exact rational arithmetic (`ℚ`), modelling the
  source's float32 computations without rounding noise.
* `astype(np.uint8)` on a float array truncates toward zero and wraps
  modulo 256 (`toByteQ`); `np.clip(·,0,255).astype(np.uint8)` is
  `toByteClip`.
* Python `int(x)` truncates toward zero (`ratTrunc`).
* OpenCV primitives whose exact kernels are transcendental for the large
  apertures used by the shadow generator (`cv2.resize`, large
  `cv2.GaussianBlur`, the float power `x ** 1.5`) are abstracted as
  function parameters; every theorem about code paths that touch them is
  universally quantified over the parameter, so it holds in particular
  for the real OpenCV implementation.  Small Gaussian apertures
  (ksize ≤ 7, sigma 0) use OpenCV's hard-coded small-kernel table and are
  embedded exactly (`smallGaussianTab`), with `BORDER_REFLECT_101`
  boundary handling (`reflect101`).
-/

namespace Spyne

/-- Python `int(q)`: truncation toward zero. -/
def ratTrunc (q : ℚ) : ℤ := if 0 ≤ q then ⌊q⌋ else -⌊-q⌋

/-- `astype(np.uint8)` applied to an exact value: truncate toward zero,
then wrap modulo 256. -/
def toByteQ (q : ℚ) : ℚ := ((ratTrunc q) % 256 : ℤ)

/-- `np.clip(q, 0, 255)`. -/
def clip255 (q : ℚ) : ℚ := max 0 (min 255 q)

/-- `np.clip(·,0,255).astype(np.uint8)`. -/
def toByteClip (q : ℚ) : ℚ := ((ratTrunc (clip255 q) : ℤ) : ℚ)

/-- OpenCV `cvRound`: round half to even. -/
def cvRound (q : ℚ) : ℤ :=
  let f := ⌊q⌋
  let r := q - (f : ℚ)
  if r < 1/2 then f
  else if 1/2 < r then f + 1
  else if Even f then f else f + 1

theorem ratTrunc_eq_floor {q : ℚ} (h : 0 ≤ q) : ratTrunc q = ⌊q⌋ := by
  simp [ratTrunc, h]

theorem ratTrunc_nonneg {q : ℚ} (h : 0 ≤ q) : 0 ≤ ratTrunc q := by
  rw [ratTrunc_eq_floor h]; exact Int.floor_nonneg.mpr h

theorem ratTrunc_le_of_le {q : ℚ} {n : ℤ} (h0 : 0 ≤ q) (h : q ≤ n) :
    ratTrunc q ≤ n := by
  rw [ratTrunc_eq_floor h0]
  have := Int.floor_le_floor h
  simpa using this

theorem le_ratTrunc_of_le {q : ℚ} {n : ℤ} (h0 : 0 ≤ q) (h : (n : ℚ) ≤ q) :
    n ≤ ratTrunc q := by
  rw [ratTrunc_eq_floor h0]; exact Int.le_floor.mpr h

theorem ratTrunc_mono {p q : ℚ} (h0 : 0 ≤ p) (h : p ≤ q) :
    ratTrunc p ≤ ratTrunc q := by
  rw [ratTrunc_eq_floor h0, ratTrunc_eq_floor (le_trans h0 h)]
  exact Int.floor_le_floor h

theorem toByteQ_nonneg (q : ℚ) : 0 ≤ toByteQ q := by
  unfold toByteQ
  have : 0 ≤ (ratTrunc q) % 256 := Int.emod_nonneg _ (by norm_num)
  exact_mod_cast this

theorem toByteQ_le (q : ℚ) : toByteQ q ≤ 255 := by
  unfold toByteQ
  have h : (ratTrunc q) % 256 < 256 := Int.emod_lt_of_pos _ (by norm_num)
  have : (ratTrunc q) % 256 ≤ 255 := by omega
  exact_mod_cast this

/-- For `0 ≤ q < 256` the uint8 cast is plain truncation. -/
theorem toByteQ_eq_trunc {q : ℚ} (h0 : 0 ≤ q) (h1 : q < 256) :
    toByteQ q = ((ratTrunc q : ℤ) : ℚ) := by
  unfold toByteQ
  have hf : ratTrunc q = ⌊q⌋ := ratTrunc_eq_floor h0
  have hge : 0 ≤ ⌊q⌋ := Int.floor_nonneg.mpr h0
  have hlt : ⌊q⌋ < 256 := Int.floor_lt.mpr (by exact_mod_cast h1)
  rw [hf, Int.emod_eq_of_lt hge hlt]

/-- An RGB image: height, width, and an exact-rational pixel function
(channel-indexed).  Values outside `[0,h) × [0,w)` are irrelevant junk. -/
structure Grid3 where
  h : ℕ
  w : ℕ
  pix : ℕ → ℕ → Fin 3 → ℚ

/-- A single-channel (mask / intensity) image. -/
structure Grid1 where
  h : ℕ
  w : ℕ
  pix : ℕ → ℕ → ℚ

/-- Channel of an RGB triple. -/
def chan (c : ℚ × ℚ × ℚ) : Fin 3 → ℚ
  | 0 => c.1
  | 1 => c.2.1
  | 2 => c.2.2

/-! ## Background generator (`background.py`) -/

/-- One entry of `BackgroundGenerator.PRESETS` / a custom config dict.
`floor_gradient` is read with `.get(_, 0.3)` in the source, so it is
always present here. -/
structure BgConfig where
  top_color : ℚ × ℚ × ℚ
  horizon_color : ℚ × ℚ × ℚ
  floor_color : ℚ × ℚ × ℚ
  horizon_position : ℚ
  floor_gradient : ℚ

def studioWhiteCfg : BgConfig :=
  ⟨(250, 250, 250), (240, 240, 240), (215, 215, 215), 13/20, 3/10⟩

def studioGreyCfg : BgConfig :=
  ⟨(235, 235, 235), (210, 210, 210), (175, 175, 175), 13/20, 7/20⟩

def studioDarkCfg : BgConfig :=
  ⟨(90, 90, 90), (60, 60, 60), (35, 35, 35), 13/20, 2/5⟩

def showroomCfg : BgConfig :=
  ⟨(248, 248, 250), (230, 230, 235), (195, 195, 200), 3/5, 7/20⟩

def outdoorNeutralCfg : BgConfig :=
  ⟨(200, 210, 220), (180, 185, 190), (160, 165, 170), 11/20, 1/4⟩

def dealershipCfg : BgConfig :=
  ⟨(245, 245, 247), (225, 225, 230), (185, 185, 195), 31/50, 2/5⟩

/-- `self.PRESETS.get(preset, self.PRESETS['studio_white'])`. -/
def PRESETS (name : String) : BgConfig :=
  if name = "studio_white" then studioWhiteCfg
  else if name = "studio_grey" then studioGreyCfg
  else if name = "studio_dark" then studioDarkCfg
  else if name = "showroom" then showroomCfg
  else if name = "outdoor_neutral" then outdoorNeutralCfg
  else if name = "dealership" then dealershipCfg
  else studioWhiteCfg

/-- `BackgroundGenerator._ease_in_out`. -/
def ease_in_out (t : ℚ) : ℚ := t * t * (3 - 2 * t)

/-- Run-time errors the background generator can raise:
`np.zeros` with a negative dimension raises numpy's "negative dimensions
are not allowed" `ValueError`; an assignment `background[y, :] = …` with
`y` outside `[-height, height)` raises `IndexError`. -/
inductive PyErr where
  | negativeDimensions
  | indexError
deriving DecidableEq

/-- `BackgroundGenerator.create_studio_background`.

Faithful to the source semantics, including the degenerate paths:
* `np.zeros((height, width, 3))` fails on a negative dimension;
* the wall loop `for y in range(horizon_y)` raises `IndexError` as soon
  as it writes row `height` (i.e. iff `horizon_y > height`);
* the floor loop `for y in range(horizon_y, height)` starts at a negative
  `y` when `horizon_y < 0`; numpy interprets a negative row index as
  `height + y`, so those writes wrap to the bottom rows and are later
  overwritten by the non-negative iterations — unless `horizon_y < -height`,
  where the very first write raises `IndexError`.  Hence on success every
  row `i` holds the wall colour if `i < horizon_y` and the floor colour
  otherwise (last write wins). -/
def create_studio_background (width height : ℤ) (preset : String)
    (custom : Option BgConfig) : Except PyErr Grid3 :=
  let config := custom.getD (PRESETS preset)
  if width < 0 ∨ height < 0 then .error .negativeDimensions
  else
    let horizon_y : ℤ := ratTrunc ((height : ℚ) * config.horizon_position)
    if height < horizon_y then .error .indexError
    else if horizon_y < -height then .error .indexError
    else .ok
      { h := height.toNat, w := width.toNat,
        pix := fun i _ c =>
          if (i : ℤ) < horizon_y then
            toByteQ (chan config.top_color c +
              (chan config.horizon_color c - chan config.top_color c) *
                ease_in_out ((i : ℚ) / (horizon_y : ℚ)))
          else
            toByteQ (chan config.horizon_color c +
              (chan config.floor_color c - chan config.horizon_color c) *
                ease_in_out
                  ((((i : ℚ) - (horizon_y : ℚ)) /
                      ((height : ℚ) - (horizon_y : ℚ))) *
                      config.floor_gradient + (1 - config.floor_gradient))) }

/-- `Except` success test (the source simply returns normally). -/
def isOkE {ε α : Type} (e : Except ε α) : Bool :=
  match e with
  | .ok _ => true
  | .error _ => false

theorem presets_horizon_bounds (name : String) :
    0 ≤ (PRESETS name).horizon_position ∧ (PRESETS name).horizon_position ≤ 1 := by
  unfold PRESETS
  split
  · exact ⟨by norm_num [studioWhiteCfg], by norm_num [studioWhiteCfg]⟩
  split
  · exact ⟨by norm_num [studioGreyCfg], by norm_num [studioGreyCfg]⟩
  split
  · exact ⟨by norm_num [studioDarkCfg], by norm_num [studioDarkCfg]⟩
  split
  · exact ⟨by norm_num [showroomCfg], by norm_num [showroomCfg]⟩
  split
  · exact ⟨by norm_num [outdoorNeutralCfg], by norm_num [outdoorNeutralCfg]⟩
  split
  · exact ⟨by norm_num [dealershipCfg], by norm_num [dealershipCfg]⟩
  · exact ⟨by norm_num [studioWhiteCfg], by norm_num [studioWhiteCfg]⟩

/-! ## Shadow generator (`shadows.py`) -/

/-- One entry of `ShadowGenerator.SHADOW_CONFIG` (the `color` key is dead
in the source and omitted). -/
structure ShadowConfig where
  blur_radius : ℕ
  opacity : ℚ
  offset_y : ℤ
  scale_y : ℚ
  scale_x : ℚ
  gradient : Bool

def contactCfg : ShadowConfig := ⟨5, 9/20, 0, 3/200, 19/20, false⟩

def ambientCfg : ShadowConfig := ⟨35, 1/4, 5, 3/25, 11/10, true⟩

def dropCfg : ShadowConfig := ⟨80, 3/20, 15, 1/5, 13/10, true⟩

/-- `self.SHADOW_CONFIG.get(shadow_type, self.SHADOW_CONFIG['ambient'])`. -/
def SHADOW_CONFIG (t : String) : ShadowConfig :=
  if t = "contact" then contactCfg
  else if t = "ambient" then ambientCfg
  else if t = "drop" then dropCfg
  else ambientCfg

/-- The set of coordinates `(y, x)` with `mask > 0`
(`np.column_stack(np.where(mask > 0))`). -/
def silhouette (mask : Grid1) : Finset (ℕ × ℕ) :=
  (Finset.range mask.h ×ˢ Finset.range mask.w).filter
    fun p => 0 < mask.pix p.1 p.2

/-- Effective bound of a (possibly negative) Python slice index. -/
def pyIdx (dim : ℕ) (a : ℤ) : ℕ :=
  if a < 0 then (max 0 ((dim : ℤ) + a)).toNat else (min (dim : ℤ) a).toNat

/-- `g[r0:r1, c0:c1]` with numpy slice semantics (negative indices count
from the end, out-of-range bounds clamp, inverted ranges are empty). -/
def slice1 (g : Grid1) (r0 r1 c0 c1 : ℤ) : Grid1 :=
  let rs := pyIdx g.h r0
  let re := pyIdx g.h r1
  let cs := pyIdx g.w c0
  let ce := pyIdx g.w c1
  ⟨re - rs, ce - cs, fun i j => g.pix (rs + i) (cs + j)⟩

/-- `ShadowGenerator._apply_shadow_gradient`.  The float power
`dist ** 1.5` is the abstract parameter `rpow15`. -/
def apply_shadow_gradient (rpow15 : ℚ → ℚ) (g : Grid1) : Grid1 :=
  ⟨g.h, g.w, fun y x =>
    let cx : ℚ := (g.w : ℚ) / 2
    let dist := |(x : ℚ) - cx| / cx
    let xg := 1 - rpow15 dist * (1/2)
    let yg := 1 - ((y : ℚ) / (g.h : ℚ)) * (7/10)
    toByteQ (g.pix y x * (xg * yg))⟩

/-- `ShadowGenerator.create_shadow_layer`.

`resize1` abstracts `cv2.resize` (bilinear) and `gblur k` abstracts
`cv2.GaussianBlur` with aperture `k` (the shadow apertures 11/71/161 have
transcendental kernels); every theorem below is universally quantified
over them.  The source can raise from `cv2.resize` on a zero-width strip
(degenerate single-column silhouette with `scale_y < 1`), a path no
claim exercises; the abstract `resize1` is total. -/
def create_shadow_layer (resize1 : Grid1 → ℕ → ℕ → Grid1)
    (gblur : ℕ → Grid1 → Grid1) (rpow15 : ℚ → ℚ)
    (mask : Grid1) (shadow_type : String) (custom : Option ShadowConfig) :
    Grid1 :=
  let config := custom.getD (SHADOW_CONFIG shadow_type)
  let h := mask.h
  let w := mask.w
  if hsil : silhouette mask = ∅ then ⟨h, w, fun _ _ => 0⟩
  else
    have hne : (silhouette mask).Nonempty :=
      Finset.nonempty_iff_ne_empty.mpr hsil
    let y_min := ((silhouette mask).image Prod.fst).min' (hne.image _)
    let y_max := ((silhouette mask).image Prod.fst).max' (hne.image _)
    let x_min := ((silhouette mask).image Prod.snd).min' (hne.image _)
    let x_max := ((silhouette mask).image Prod.snd).max' (hne.image _)
    let car_height := y_max - y_min
    let car_width := x_max - x_min
    let shadow_height : ℤ := ratTrunc ((car_height : ℚ) * config.scale_y)
    let shadow_width : ℤ := ratTrunc ((car_width : ℚ) * config.scale_x)
    let bottom_strip :=
      slice1 mask ((y_max : ℤ) - shadow_height) y_max x_min x_max
    let strip :=
      if bottom_strip.h * bottom_strip.w = 0 then
        slice1 mask (max 0 ((y_max : ℤ) - 20)) y_max x_min x_max
      else bottom_strip
    let shadow0 :=
      if 0 < shadow_height ∧ 0 < shadow_width then
        resize1 strip shadow_width.toNat shadow_height.toNat
      else ⟨(max 1 shadow_height).toNat, (max 1 shadow_width).toNat,
            fun _ _ => 0⟩
    let shadow1 :=
      if config.scale_y < 1 then
        resize1 shadow0 shadow_width.toNat (max 1 shadow_height).toNat
      else shadow0
    let shadow2 :=
      if config.gradient then apply_shadow_gradient rpow15 shadow1
      else shadow1
    let shadow3 :=
      if 0 < config.blur_radius then
        gblur (2 * config.blur_radius + 1) shadow2
      else shadow2
    let shadow_y : ℤ := (y_max : ℤ) + config.offset_y
    let shadow_x : ℤ := (x_min : ℤ) + ((car_width : ℤ) - shadow_width).fdiv 2
    let sy1 := max 0 shadow_y
    let sy2 := min (h : ℤ) (shadow_y + shadow3.h)
    let sx1 := max 0 shadow_x
    let sx2 := min (w : ℤ) (shadow_x + shadow3.w)
    let oy1 := max 0 (-shadow_y)
    let oy2 := oy1 + (sy2 - sy1)
    let ox1 := max 0 (-shadow_x)
    let ox2 := ox1 + (sx2 - sx1)
    let pasted : Grid1 :=
      if sy1 < sy2 ∧ sx1 < sx2 ∧ oy2 ≤ shadow3.h ∧ ox2 ≤ shadow3.w then
        ⟨h, w, fun i j =>
          if sy1 ≤ (i : ℤ) ∧ (i : ℤ) < sy2 ∧ sx1 ≤ (j : ℤ) ∧ (j : ℤ) < sx2 then
            shadow3.pix ((i : ℤ) - sy1 + oy1).toNat ((j : ℤ) - sx1 + ox1).toNat
          else 0⟩
      else ⟨h, w, fun _ _ => 0⟩
    ⟨h, w, fun i j => toByteQ (pasted.pix i j * config.opacity)⟩

/-- The shadow dictionary handed to the compositor
(`{'contact': …, 'ambient': …, 'drop': …}`, keys optional). -/
structure Shadows where
  contact : Option Grid1
  ambient : Option Grid1
  drop : Option Grid1

/-- One iteration of the `composite_shadows` loop body. -/
def shadowBlendStep (blend_mode : String) (res : Grid3) (os : Option Grid1) :
    Grid3 :=
  match os with
  | none => res
  | some s =>
    if blend_mode = "multiply" then
      ⟨res.h, res.w, fun i j c => res.pix i j c * (1 - s.pix i j / 255)⟩
    else
      ⟨res.h, res.w, fun i j c => res.pix i j c - (s.pix i j / 255) * 100⟩

/-- `ShadowGenerator.composite_shadows`: drop, then ambient, then
contact, then `np.clip(·,0,255).astype(np.uint8)`. -/
def composite_shadows (background : Grid3) (shadows : Shadows)
    (blend_mode : String) : Grid3 :=
  let r1 := shadowBlendStep blend_mode background shadows.drop
  let r2 := shadowBlendStep blend_mode r1 shadows.ambient
  let r3 := shadowBlendStep blend_mode r2 shadows.contact
  ⟨r3.h, r3.w, fun i j c => toByteClip (r3.pix i j c)⟩

theorem silhouette_empty_of_zero {mask : Grid1}
    (hemp : ∀ i j, i < mask.h → j < mask.w → mask.pix i j ≤ 0) :
    silhouette mask = ∅ := by
  unfold silhouette
  apply Finset.filter_eq_empty_iff.mpr
  intro p hp
  rcases Finset.mem_product.mp hp with ⟨h1, h2⟩
  exact not_lt.mpr (hemp _ _ (Finset.mem_range.mp h1) (Finset.mem_range.mp h2))

def presetNames : List String :=
  ["studio_white", "studio_grey", "studio_dark", "showroom",
   "outdoor_neutral", "dealership"]

def shadowTypeNames : List String := ["contact", "ambient", "drop"]

theorem PRESETS_unknown {name : String} (h : name ∉ presetNames) :
    PRESETS name = studioWhiteCfg := by
  simp [presetNames] at h
  obtain ⟨h1, h2, h3, h4, h5, h6⟩ := h
  simp [PRESETS, h1, h2, h3, h4, h5, h6]

theorem SHADOW_CONFIG_unknown {t : String} (h : t ∉ shadowTypeNames) :
    SHADOW_CONFIG t = ambientCfg := by
  simp [shadowTypeNames] at h
  obtain ⟨h1, h2, h3⟩ := h
  simp [SHADOW_CONFIG, h1, h2, h3]

/-- **C3.** For every mask whose pixels are all zero (more generally, none
above zero) and every shadow type, `create_shadow_layer` returns the
all-zero intensity layer with the mask's dimensions, without error — for
every implementation of the abstracted resize/blur/power primitives and
every custom configuration. -/
theorem C3_empty_mask_zero_shadow (resize1 : Grid1 → ℕ → ℕ → Grid1)
    (gblur : ℕ → Grid1 → Grid1) (rpow15 : ℚ → ℚ) (mask : Grid1)
    (shadow_type : String) (custom : Option ShadowConfig)
    (hemp : ∀ i j, i < mask.h → j < mask.w → mask.pix i j ≤ 0) :
    create_shadow_layer resize1 gblur rpow15 mask shadow_type custom =
      ⟨mask.h, mask.w, fun _ _ => 0⟩ := by
  have h0 := silhouette_empty_of_zero hemp
  simp only [create_shadow_layer]
  rw [dif_pos h0]

/-- Witness for C3: a concrete 2×2 all-zero mask, `ambient` type, identity
primitives. -/
theorem C3_empty_mask_zero_shadow_witness :
    create_shadow_layer (fun g _ _ => g) (fun _ g => g) (fun q => q)
      ⟨2, 2, fun _ _ => 0⟩ "ambient" none = ⟨2, 2, fun _ _ => 0⟩ :=
  C3_empty_mask_zero_shadow _ _ _ _ _ _ (fun _ _ _ _ => le_refl 0)

/-- **C10.** An unrecognized background preset name (with no custom
config) falls back to `studio_white`; an unrecognized shadow type falls
back to the `ambient` configuration.  Neither call fails. -/
theorem C10_unknown_name_fallback :
    (∀ (width height : ℤ) (name : String), name ∉ presetNames →
      create_studio_background width height name none =
        create_studio_background width height "studio_white" none) ∧
    (∀ (resize1 : Grid1 → ℕ → ℕ → Grid1) (gblur : ℕ → Grid1 → Grid1)
        (rpow15 : ℚ → ℚ) (mask : Grid1) (t : String), t ∉ shadowTypeNames →
      create_shadow_layer resize1 gblur rpow15 mask t none =
        create_shadow_layer resize1 gblur rpow15 mask "ambient" none) := by
  constructor
  · intro width height name hname
    have hp : PRESETS name = PRESETS "studio_white" := by
      rw [PRESETS_unknown hname]; rfl
    simp only [create_studio_background, Option.getD, hp]
  · intro resize1 gblur rpow15 mask t ht
    have hp : SHADOW_CONFIG t = SHADOW_CONFIG "ambient" := by
      rw [SHADOW_CONFIG_unknown ht]; rfl
    simp only [create_shadow_layer, Option.getD, hp]

/-- Witness for C10 at the unknown name `"nope"`. -/
theorem C10_unknown_name_fallback_witness :
    create_studio_background 2 2 "nope" none =
      create_studio_background 2 2 "studio_white" none ∧
    create_shadow_layer (fun g _ _ => g) (fun _ g => g) (fun q => q)
        ⟨1, 1, fun _ _ => 255⟩ "nope" none =
      create_shadow_layer (fun g _ _ => g) (fun _ g => g) (fun q => q)
        ⟨1, 1, fun _ _ => 255⟩ "ambient" none :=
  ⟨C10_unknown_name_fallback.1 2 2 "nope" (by decide),
   C10_unknown_name_fallback.2 _ _ _ _ "nope" (by decide)⟩

/-- **C4 counterexample.**  The claim says background synthesis fails with
`InvalidDimensions` whenever `width ≤ 0` or `height ≤ 0`, and that an
out-of-range horizon position is clamped, never rejected.  In fact
`height = 0` succeeds (returns an empty buffer), and `horizon_position
= 3/2` is rejected with an `IndexError` (the wall loop writes past the
last row) rather than clamped. -/
theorem C4_counterexample :
    isOkE (create_studio_background 5 0 "studio_white" none) = true ∧
    isOkE (create_studio_background 2 2 "studio_white"
      (some ⟨(250, 250, 250), (240, 240, 240), (215, 215, 215),
             3/2, 3/10⟩)) = false := by
  constructor
  · norm_num [create_studio_background, isOkE, ratTrunc, PRESETS,
      studioWhiteCfg]
  · norm_num [create_studio_background, isOkE, ratTrunc]

/-- **C4 (amended).**  Background synthesis performs no explicit dimension
validation: a negative width or height fails with numpy's
negative-dimensions error, while zero (or any non-negative) dimensions
with an in-range horizon succeed; `horizon_position` is not clamped —
whenever `int(height · horizon_position)` exceeds `height` the row loop
raises an index error. -/
theorem C4_no_validation_behavior :
    (∀ (width height : ℤ) (p : String) (c : Option BgConfig),
        width < 0 ∨ height < 0 →
        create_studio_background width height p c =
          .error .negativeDimensions) ∧
    (∀ (width height : ℤ) (p : String) (c : Option BgConfig),
        0 ≤ width → 0 ≤ height →
        height < ratTrunc ((height : ℚ) *
          (c.getD (PRESETS p)).horizon_position) →
        create_studio_background width height p c = .error .indexError) ∧
    (∀ (width height : ℤ) (p : String) (c : Option BgConfig),
        0 ≤ width → 0 ≤ height →
        ratTrunc ((height : ℚ) * (c.getD (PRESETS p)).horizon_position) ≤
          height →
        -height ≤ ratTrunc ((height : ℚ) *
          (c.getD (PRESETS p)).horizon_position) →
        isOkE (create_studio_background width height p c) = true) := by
  refine ⟨?_, ?_, ?_⟩
  · intro width height p c h
    simp only [create_studio_background]
    rw [if_pos h]
  · intro width height p c hw hh hidx
    simp only [create_studio_background]
    rw [if_neg (by omega), if_pos hidx]
  · intro width height p c hw hh hle hge
    simp only [create_studio_background]
    rw [if_neg (by omega), if_neg (not_lt.mpr hle),
        if_neg (not_lt.mpr hge)]
    rfl

/-- Witness for the amended C4: a negative width fails, a horizon of 3/2
raises the index error, a 4×4 call succeeds. -/
theorem C4_no_validation_behavior_witness :
    create_studio_background (-1) 5 "studio_white" none =
      .error .negativeDimensions ∧
    create_studio_background 2 2 "studio_white"
        (some ⟨(0, 0, 0), (0, 0, 0), (0, 0, 0), 3/2, 3/10⟩) =
      .error .indexError ∧
    isOkE (create_studio_background 4 4 "studio_white" none) = true :=
  ⟨C4_no_validation_behavior.1 (-1) 5 _ none (Or.inl (by norm_num)),
   C4_no_validation_behavior.2.1 2 2 _ _ (by norm_num) (by norm_num)
     (by norm_num [ratTrunc]),
   C4_no_validation_behavior.2.2 4 4 _ none (by norm_num) (by norm_num)
     (by norm_num [ratTrunc, PRESETS, studioWhiteCfg])
     (by norm_num [ratTrunc, PRESETS, studioWhiteCfg])⟩

/-- **C5 counterexample.**  The claim quantifies over *every* custom
configuration; a custom configuration with `horizon_position = 3/2` makes
`create_studio_background` raise an index error instead of returning a
buffer of the requested size. -/
theorem C5_counterexample :
    isOkE (create_studio_background 3 3 "studio_white"
      (some ⟨(250, 250, 250), (240, 240, 240), (215, 215, 215),
             3/2, 3/10⟩)) = false := by
  norm_num [create_studio_background, isOkE, ratTrunc]

/-- **C5 (amended).**  For every `width > 0`, `height > 0`, and every
preset or custom configuration whose `horizon_position` lies in `[0, 1]`
(all built-in presets qualify), background synthesis returns a buffer of
exactly `height` rows by `width` columns with every channel value in
`[0, 255]`. -/
theorem C5_size_and_range (width height : ℤ) (preset : String)
    (custom : Option BgConfig) (hw : 0 < width) (hh : 0 < height)
    (hp0 : 0 ≤ (custom.getD (PRESETS preset)).horizon_position)
    (hp1 : (custom.getD (PRESETS preset)).horizon_position ≤ 1) :
    ∃ g, create_studio_background width height preset custom = .ok g ∧
      (g.h : ℤ) = height ∧ (g.w : ℤ) = width ∧
      ∀ i j c, 0 ≤ g.pix i j c ∧ g.pix i j c ≤ 255 := by
  have hq0 : (0 : ℚ) ≤ (height : ℚ) *
      (custom.getD (PRESETS preset)).horizon_position :=
    mul_nonneg (by exact_mod_cast hh.le) hp0
  have hle : ratTrunc ((height : ℚ) *
      (custom.getD (PRESETS preset)).horizon_position) ≤ height := by
    apply ratTrunc_le_of_le hq0
    calc (height : ℚ) * (custom.getD (PRESETS preset)).horizon_position
        ≤ (height : ℚ) * 1 := by
          exact mul_le_mul_of_nonneg_left hp1 (by exact_mod_cast hh.le)
      _ = ((height : ℤ) : ℚ) := mul_one _
  have hge : -height ≤ ratTrunc ((height : ℚ) *
      (custom.getD (PRESETS preset)).horizon_position) := by
    have := ratTrunc_nonneg hq0
    omega
  simp only [create_studio_background]
  rw [if_neg (by omega), if_neg (not_lt.mpr hle), if_neg (not_lt.mpr hge)]
  refine ⟨_, rfl, ?_, ?_, ?_⟩
  · exact Int.toNat_of_nonneg hh.le
  · exact Int.toNat_of_nonneg hw.le
  · intro i j c
    dsimp only
    split
    · exact ⟨toByteQ_nonneg _, toByteQ_le _⟩
    · exact ⟨toByteQ_nonneg _, toByteQ_le _⟩

/-- Witness for the amended C5 at 4×3, preset `showroom`. -/
theorem C5_size_and_range_witness :
    ∃ g, create_studio_background 4 3 "showroom" none = .ok g ∧
      (g.h : ℤ) = 3 ∧ (g.w : ℤ) = 4 ∧
      ∀ i j c, 0 ≤ g.pix i j c ∧ g.pix i j c ≤ 255 :=
  C5_size_and_range 4 3 "showroom" none (by norm_num) (by norm_num)
    (by norm_num [show PRESETS "showroom" = showroomCfg from rfl, showroomCfg])
    (by norm_num [show PRESETS "showroom" = showroomCfg from rfl, showroomCfg])

/-! ## Compositor (`composite.py`) -/

/-- `cv2.cvtColor(·, cv2.COLOR_BGR2RGB)` as a channel permutation. -/
def swapBGR : Fin 3 → Fin 3
  | 0 => 2
  | 1 => 1
  | 2 => 0

/-- `q = n` for some byte value `n ∈ [0,255]` — the characterisation of a
genuine `uint8` pixel. -/
def IsByte (q : ℚ) : Prop := ∃ n : ℕ, n ≤ 255 ∧ q = (n : ℚ)

theorem toByteClip_of_isByte {q : ℚ} (h : IsByte q) : toByteClip q = q := by
  obtain ⟨n, hn, rfl⟩ := h
  unfold toByteClip clip255
  have h0 : (0 : ℚ) ≤ (n : ℚ) := by positivity
  have h255 : (n : ℚ) ≤ 255 := by exact_mod_cast hn
  rw [min_eq_right h255, max_eq_right h0,
      ratTrunc_eq_floor h0]
  simp

/-- `Compositor._blend_layer`: in-place alpha blend of `layer` (with
`mask` as alpha) onto `base` at integer position `(x, y)`, clipped to the
overlap of the positioned layer rectangle with the canvas.  The source
casts the layer region to `uint8` and swaps BGR→RGB before blending
(`toByteQ`/`swapBGR` here); the mask is divided by 255. -/
def blend_layer (base layer : Grid3) (mask : Grid1) (x y : ℤ) : Grid3 :=
  let bh : ℤ := base.h
  let bw : ℤ := base.w
  let lh : ℤ := layer.h
  let lw : ℤ := layer.w
  let x1 := max 0 x
  let y1 := max 0 y
  let x2 := min bw (x + lw)
  let y2 := min bh (y + lh)
  let lx1 := max 0 (-x)
  let ly1 := max 0 (-y)
  if x2 ≤ x1 ∨ y2 ≤ y1 then base
  else
    { base with pix := fun i j c =>
        if y1 ≤ (i : ℤ) ∧ (i : ℤ) < y2 ∧ x1 ≤ (j : ℤ) ∧ (j : ℤ) < x2 then
          let si := ((i : ℤ) - y1 + ly1).toNat
          let sj := ((j : ℤ) - x1 + lx1).toNat
          let m := mask.pix si sj / 255
          base.pix i j c * (1 - m) +
            toByteQ (layer.pix si sj (swapBGR c)) * m
        else base.pix i j c }

/-- `Compositor._blend_shadow`: resize the intensity map to the canvas if
needed, then multiply every channel by `1 − intensity/255`.  `resize1`
abstracts `cv2.resize`. -/
def blend_shadow (resize1 : Grid1 → ℕ → ℕ → Grid1) (base : Grid3)
    (shadow : Grid1) : Grid3 :=
  let sh :=
    if shadow.h ≠ base.h ∨ shadow.w ≠ base.w then
      resize1 shadow base.w base.h
    else shadow
  { base with pix := fun i j c => base.pix i j c * (1 - sh.pix i j / 255) }

/-- `Compositor.auto_position_car`. -/
def auto_position_car (bg_w bg_h car_w car_h : ℕ) (horizon_ratio : ℚ) :
    ℤ × ℤ :=
  let x := ((bg_w : ℤ) - (car_w : ℤ)).fdiv 2
  let horizon_y := ratTrunc ((bg_h : ℚ) * horizon_ratio)
  let y := horizon_y - (car_h : ℤ) + ratTrunc ((car_h : ℚ) * (1/20))
  (x, y)

/-- `Compositor.scale_car_to_fit`.  `resize3`/`resize1` abstract
`cv2.resize(·, INTER_AREA)`. -/
def scale_car_to_fit (resize3 : Grid3 → ℕ → ℕ → Grid3)
    (resize1 : Grid1 → ℕ → ℕ → Grid1) (car_image : Grid3) (car_mask : Grid1)
    (target_width target_height : ℕ)
    (max_width_ratio max_height_ratio : ℚ) : Grid3 × Grid1 :=
  let car_h := car_image.h
  let car_w := car_image.w
  let max_w : ℤ := ratTrunc ((target_width : ℚ) * max_width_ratio)
  let max_h : ℤ := ratTrunc ((target_height : ℚ) * max_height_ratio)
  let scale : ℚ := min ((max_w : ℚ) / (car_w : ℚ)) ((max_h : ℚ) / (car_h : ℚ))
  if scale < 1 then
    let new_w := ratTrunc ((car_w : ℚ) * scale)
    let new_h := ratTrunc ((car_h : ℚ) * scale)
    (resize3 car_image new_w.toNat new_h.toNat,
     resize1 car_mask new_w.toNat new_h.toNat)
  else (car_image, car_mask)

/-- The default car position of `composite_final`: centered, sitting on
the 0.65 horizon with the `int(car_h·0.1)` downward adjustment. -/
def cfDefaultPos (out_w out_h car_w car_h : ℕ) : ℤ × ℤ :=
  (((out_w : ℤ) - (car_w : ℤ)).fdiv 2,
   ratTrunc ((out_h : ℚ) * (13/20)) - (car_h : ℤ) +
     ratTrunc ((car_h : ℚ) * (1/10)))

/-- The reflection blend of `composite_final`: applied only when both the
reflection image and its mask are provided. -/
def cfReflStep (bg : Grid3) (reflection : Option Grid3)
    (reflection_mask : Option Grid1) (x y : ℤ) : Grid3 :=
  match reflection, reflection_mask with
  | some refl, some rmask => blend_layer bg refl rmask x y
  | _, _ => bg

/-- One iteration of `composite_final`'s shadow loop: skip a missing or
empty layer, otherwise blend with `_blend_shadow`. -/
def cfShadowStep (resize1 : Grid1 → ℕ → ℕ → Grid1) (r : Grid3)
    (os : Option Grid1) : Grid3 :=
  match os with
  | some s => if s.h * s.w = 0 then r else blend_shadow resize1 r s
  | none => r

/-- `Compositor.composite_final`: background (optionally resized), then
reflection, then the shadows in the loop order drop → ambient → contact,
then the car, then `np.clip(·,0,255).astype(np.uint8)`. -/
def composite_final (resize3 : Grid3 → ℕ → ℕ → Grid3)
    (resize1 : Grid1 → ℕ → ℕ → Grid1) (background car_image : Grid3)
    (car_mask : Grid1) (shadows : Shadows) (reflection : Option Grid3)
    (reflection_mask : Option Grid1) (car_position : Option (ℤ × ℤ))
    (output_size : Option (ℕ × ℕ)) : Grid3 :=
  let bg := match output_size with
    | some wh => resize3 background wh.1 wh.2
    | none => background
  let out_h := bg.h
  let out_w := bg.w
  let car_h := car_image.h
  let car_w := car_image.w
  let pos : ℤ × ℤ := car_position.getD (cfDefaultPos out_w out_h car_w car_h)
  let x := pos.1
  let y := pos.2
  let r1 := cfReflStep bg reflection reflection_mask x (y + (car_h : ℤ))
  let r2 := cfShadowStep resize1 r1 shadows.drop
  let r3 := cfShadowStep resize1 r2 shadows.ambient
  let r4 := cfShadowStep resize1 r3 shadows.contact
  let r5 := blend_layer r4 car_image car_mask x y
  ⟨r5.h, r5.w, fun i j c => toByteClip (r5.pix i j c)⟩

/-- `ReflectionGenerator.add_reflection_to_composite`: the same clipped
overlap computation as `_blend_layer`, but producing a new buffer and
running the whole result through `np.clip(·,0,255).astype(np.uint8)`
(with an early `return background` when the overlap is empty). -/
def add_reflection_to_composite (background reflection : Grid3)
    (reflection_mask : Grid1) (x y : ℤ) : Grid3 :=
  let bg_h : ℤ := background.h
  let bg_w : ℤ := background.w
  let ref_h : ℤ := reflection.h
  let ref_w : ℤ := reflection.w
  let y1 := max 0 y
  let y2 := min bg_h (y + ref_h)
  let x1 := max 0 x
  let x2 := min bg_w (x + ref_w)
  let ry1 := max 0 (-y)
  let rx1 := max 0 (-x)
  if y2 ≤ y1 ∨ x2 ≤ x1 then background
  else
    { background with pix := fun i j c =>
        let v :=
          if y1 ≤ (i : ℤ) ∧ (i : ℤ) < y2 ∧ x1 ≤ (j : ℤ) ∧ (j : ℤ) < x2 then
            let si := ((i : ℤ) - y1 + ry1).toNat
            let sj := ((j : ℤ) - x1 + rx1).toNat
            let m := reflection_mask.pix si sj / 255
            background.pix i j c * (1 - m) + reflection.pix si sj c * m
          else background.pix i j c
        (toByteClip v) }

/-- **C2.**  Clipped blending is bounds-safe.  For `_blend_layer` (and
likewise `add_reflection_to_composite`), at every canvas pixel:
* outside the intersection of the positioned layer rectangle with the
  canvas, the pixel is left unchanged (for the reflection variant this
  needs the background pixel to be a genuine byte, because the source
  re-casts the whole buffer through `np.clip(·,0,255).astype(np.uint8)`);
* inside the intersection, the blended value reads the layer and mask at
  source index `(i − y, j − x)`, which is proven in bounds — no wraparound
  and no out-of-range read, for every integer position including
  partially and fully off-canvas ones; both functions are total (no
  error) and preserve the canvas dimensions. -/
theorem C2_blend_layer_clipping :
    (∀ (base layer : Grid3) (mask : Grid1) (x y : ℤ),
      (blend_layer base layer mask x y).h = base.h ∧
      (blend_layer base layer mask x y).w = base.w ∧
      ∀ (i j : ℕ) (c : Fin 3), i < base.h → j < base.w →
        (¬(y ≤ (i : ℤ) ∧ (i : ℤ) < y + layer.h ∧
           x ≤ (j : ℤ) ∧ (j : ℤ) < x + layer.w) →
          (blend_layer base layer mask x y).pix i j c = base.pix i j c) ∧
        ((y ≤ (i : ℤ) ∧ (i : ℤ) < y + layer.h ∧
          x ≤ (j : ℤ) ∧ (j : ℤ) < x + layer.w) →
          ((i : ℤ) - y).toNat < layer.h ∧ ((j : ℤ) - x).toNat < layer.w ∧
          (blend_layer base layer mask x y).pix i j c =
            base.pix i j c *
              (1 - mask.pix ((i : ℤ) - y).toNat ((j : ℤ) - x).toNat / 255) +
            toByteQ (layer.pix ((i : ℤ) - y).toNat ((j : ℤ) - x).toNat
                (swapBGR c)) *
              (mask.pix ((i : ℤ) - y).toNat ((j : ℤ) - x).toNat / 255))) ∧
    (∀ (background reflection : Grid3) (rmask : Grid1) (x y : ℤ),
      (add_reflection_to_composite background reflection rmask x y).h =
        background.h ∧
      (add_reflection_to_composite background reflection rmask x y).w =
        background.w ∧
      ∀ (i j : ℕ) (c : Fin 3), i < background.h → j < background.w →
        (¬(y ≤ (i : ℤ) ∧ (i : ℤ) < y + reflection.h ∧
           x ≤ (j : ℤ) ∧ (j : ℤ) < x + reflection.w) →
          IsByte (background.pix i j c) →
          (add_reflection_to_composite background reflection rmask x y).pix
            i j c = background.pix i j c) ∧
        ((y ≤ (i : ℤ) ∧ (i : ℤ) < y + reflection.h ∧
          x ≤ (j : ℤ) ∧ (j : ℤ) < x + reflection.w) →
          ((i : ℤ) - y).toNat < reflection.h ∧
          ((j : ℤ) - x).toNat < reflection.w ∧
          (add_reflection_to_composite background reflection rmask x y).pix
            i j c =
            toByteClip (background.pix i j c *
              (1 - rmask.pix ((i : ℤ) - y).toNat ((j : ℤ) - x).toNat / 255) +
              reflection.pix ((i : ℤ) - y).toNat ((j : ℤ) - x).toNat c *
                (rmask.pix ((i : ℤ) - y).toNat ((j : ℤ) - x).toNat / 255)))) := by
  constructor
  · intro base layer mask x y
    refine ⟨?_, ?_, ?_⟩
    · simp only [blend_layer]
      split <;> rfl
    · simp only [blend_layer]
      split <;> rfl
    · intro i j c hi hj
      have hi' : (i : ℤ) < (base.h : ℤ) := by exact_mod_cast hi
      have hj' : (j : ℤ) < (base.w : ℤ) := by exact_mod_cast hj
      constructor
      · intro hout
        simp only [blend_layer]
        split
        · rfl
        · dsimp only
          rw [if_neg]
          intro hc
          exact hout ⟨by omega, by omega, by omega, by omega⟩
      · intro hin
        obtain ⟨h1, h2, h3, h4⟩ := hin
        refine ⟨by omega, by omega, ?_⟩
        simp only [blend_layer]
        split
        · omega
        · dsimp only
          rw [if_pos ⟨by omega, by omega, by omega, by omega⟩]
          have e1 : ((i : ℤ) - max 0 y + max 0 (-y)).toNat =
              ((i : ℤ) - y).toNat := by omega
          have e2 : ((j : ℤ) - max 0 x + max 0 (-x)).toNat =
              ((j : ℤ) - x).toNat := by omega
          rw [e1, e2]
  · intro background reflection rmask x y
    refine ⟨?_, ?_, ?_⟩
    · simp only [add_reflection_to_composite]
      split <;> rfl
    · simp only [add_reflection_to_composite]
      split <;> rfl
    · intro i j c hi hj
      have hi' : (i : ℤ) < (background.h : ℤ) := by exact_mod_cast hi
      have hj' : (j : ℤ) < (background.w : ℤ) := by exact_mod_cast hj
      constructor
      · intro hout hbyte
        simp only [add_reflection_to_composite]
        split
        · rfl
        · dsimp only
          rw [if_neg]
          · exact toByteClip_of_isByte hbyte
          · intro hc
            exact hout ⟨by omega, by omega, by omega, by omega⟩
      · intro hin
        obtain ⟨h1, h2, h3, h4⟩ := hin
        refine ⟨by omega, by omega, ?_⟩
        simp only [add_reflection_to_composite]
        split
        · omega
        · dsimp only
          rw [if_pos ⟨by omega, by omega, by omega, by omega⟩]
          have e1 : ((i : ℤ) - max 0 y + max 0 (-y)).toNat =
              ((i : ℤ) - y).toNat := by omega
          have e2 : ((j : ℤ) - max 0 x + max 0 (-x)).toNat =
              ((j : ℤ) - x).toNat := by omega
          rw [e1, e2]

/-- Witness for C2: a 1×1 layer positioned fully off a 2×2 canvas leaves
pixel (0,0) untouched in both blend routines. -/
theorem C2_blend_layer_clipping_witness :
    (blend_layer ⟨2, 2, fun _ _ _ => 7⟩ ⟨1, 1, fun _ _ _ => 9⟩
        ⟨1, 1, fun _ _ => 255⟩ 5 5).pix 0 0 0 = 7 ∧
    (add_reflection_to_composite ⟨2, 2, fun _ _ _ => 7⟩
        ⟨1, 1, fun _ _ _ => 9⟩ ⟨1, 1, fun _ _ => 255⟩ 5 5).pix 0 0 0 = 7 := by
  constructor
  · have h := ((C2_blend_layer_clipping.1 ⟨2, 2, fun _ _ _ => 7⟩
      ⟨1, 1, fun _ _ _ => 9⟩ ⟨1, 1, fun _ _ => 255⟩ 5 5).2.2 0 0 0
      (by norm_num) (by norm_num)).1 (by intro hc; omega)
    simpa using h
  · have h := ((C2_blend_layer_clipping.2 ⟨2, 2, fun _ _ _ => 7⟩
      ⟨1, 1, fun _ _ _ => 9⟩ ⟨1, 1, fun _ _ => 255⟩ 5 5).2.2 0 0 0
      (by norm_num) (by norm_num)).1 (by intro hc; omega)
      ⟨7, by norm_num, by norm_num⟩
    simpa using h

/-- **C8.**  Auto-scale never enlarges: whenever the subject already fits
within the max ratios (`car_w ≤ maxWidthRatio·canvasWidth` and
`car_h ≤ maxHeightRatio·canvasHeight`), the scale factor is at least 1,
the resize branch is skipped, and `scale_car_to_fit` returns the image
and mask unchanged — for every resize implementation. -/
theorem C8_autoscale_never_enlarges (resize3 : Grid3 → ℕ → ℕ → Grid3)
    (resize1 : Grid1 → ℕ → ℕ → Grid1) (car_image : Grid3) (car_mask : Grid1)
    (target_width target_height : ℕ) (max_width_ratio max_height_ratio : ℚ)
    (hw : 0 < car_image.w) (hh : 0 < car_image.h)
    (hfw : (car_image.w : ℚ) ≤ (target_width : ℚ) * max_width_ratio)
    (hfh : (car_image.h : ℚ) ≤ (target_height : ℚ) * max_height_ratio) :
    scale_car_to_fit resize3 resize1 car_image car_mask target_width
      target_height max_width_ratio max_height_ratio =
      (car_image, car_mask) := by
  have hw0 : (0 : ℚ) < (car_image.w : ℚ) := by exact_mod_cast hw
  have hh0 : (0 : ℚ) < (car_image.h : ℚ) := by exact_mod_cast hh
  have hqw : (0 : ℚ) ≤ (target_width : ℚ) * max_width_ratio :=
    le_trans hw0.le hfw
  have hqh : (0 : ℚ) ≤ (target_height : ℚ) * max_height_ratio :=
    le_trans hh0.le hfh
  have hmw : (car_image.w : ℤ) ≤
      ratTrunc ((target_width : ℚ) * max_width_ratio) :=
    le_ratTrunc_of_le hqw (by exact_mod_cast hfw)
  have hmh : (car_image.h : ℤ) ≤
      ratTrunc ((target_height : ℚ) * max_height_ratio) :=
    le_ratTrunc_of_le hqh (by exact_mod_cast hfh)
  have h1 : (1 : ℚ) ≤ (ratTrunc ((target_width : ℚ) * max_width_ratio) : ℚ) /
      (car_image.w : ℚ) := by
    rw [le_div_iff₀ hw0, one_mul]
    exact_mod_cast hmw
  have h2 : (1 : ℚ) ≤ (ratTrunc ((target_height : ℚ) * max_height_ratio) : ℚ) /
      (car_image.h : ℚ) := by
    rw [le_div_iff₀ hh0, one_mul]
    exact_mod_cast hmh
  simp only [scale_car_to_fit]
  rw [if_neg (not_lt.mpr (le_min h1 h2))]

/-- Witness for C8: a 2×2 subject on a 10×10 canvas with ratios 3/4 and
1/2 is returned unchanged. -/
theorem C8_autoscale_never_enlarges_witness :
    scale_car_to_fit (fun g _ _ => g) (fun g _ _ => g)
      ⟨2, 2, fun _ _ _ => 3⟩ ⟨2, 2, fun _ _ => 255⟩ 10 10 (3/4) (1/2) =
      (⟨2, 2, fun _ _ _ => 3⟩, ⟨2, 2, fun _ _ => 255⟩) :=
  C8_autoscale_never_enlarges _ _ _ _ _ _ _ _ (by norm_num) (by norm_num)
    (by norm_num) (by norm_num)

/-- **C9 counterexample.**  The claim says the subject's bottom edge sits
at `horizonFraction·canvasHeight` with at most a slight *upward* nudge.
On a 100×100 canvas with a 40×40 subject and horizon fraction 13/20, the
horizon row is 65 but the bottom edge lands at 67 — strictly *below* the
horizon: the code adds `int(car_h·0.05)` to `y`, a downward shift. -/
theorem C9_counterexample :
    (auto_position_car 100 100 40 40 (13/20)).2 + 40 = 67 ∧
    ratTrunc ((100 : ℚ) * (13/20)) = 65 ∧ (65 : ℤ) < 67 := by
  refine ⟨?_, ?_, by norm_num⟩
  · norm_num [auto_position_car, ratTrunc]
  · norm_num [ratTrunc]

/-- **C9 (amended).**  Auto-position centers the subject horizontally by
floor division, `x = (canvasWidth − subjectWidth) // 2`, and places its
bottom edge at `int(horizonFraction·canvasHeight) + int(0.05·subjectHeight)`
— a nonnegative *downward* nudge of `int(0.05·subjectHeight)` pixels below
the horizon row (`composite_final`'s default position uses `0.1` in place
of `0.05`). -/
theorem C9_position_formula (bg_w bg_h car_w car_h : ℕ) (r : ℚ) :
    (auto_position_car bg_w bg_h car_w car_h r).1 =
      ((bg_w : ℤ) - (car_w : ℤ)).fdiv 2 ∧
    (auto_position_car bg_w bg_h car_w car_h r).2 + (car_h : ℤ) =
      ratTrunc ((bg_h : ℚ) * r) + ratTrunc ((car_h : ℚ) * (1/20)) ∧
    0 ≤ ratTrunc ((car_h : ℚ) * (1/20)) := by
  refine ⟨rfl, ?_, ?_⟩
  · simp only [auto_position_car]
    ring
  · exact ratTrunc_nonneg (by positivity)

/-! ## Reflection generator (`reflection.py`) -/

/-- `cv2.flip(·, 0)`: vertical flip. -/
def flip3 (g : Grid3) : Grid3 :=
  ⟨g.h, g.w, fun y x c => g.pix (g.h - 1 - y) x c⟩

/-- `cv2.flip(·, 0)` for a single-channel image. -/
def flip1 (g : Grid1) : Grid1 :=
  ⟨g.h, g.w, fun y x => g.pix (g.h - 1 - y) x⟩

/-- OpenCV `BORDER_REFLECT_101` index folding (`gfedcb|abcdefgh|gfedcba`),
in the closed form of `cv2.borderInterpolate`. -/
def reflect101 (n : ℕ) (i : ℤ) : ℕ :=
  if n ≤ 1 then 0
  else
    let p : ℤ := 2 * n - 2
    let j := i % p
    if j < n then j.toNat else (p - j).toNat

/-- OpenCV's hard-coded Gaussian kernels for `sigma = 0` and aperture
≤ 7 (`small_gaussian_tab`).  Larger apertures use a transcendental
σ-derived kernel and are outside the claims' scope: for them the blur
below is the identity, a path no theorem relies on. -/
def smallGaussianTab (ksize : ℕ) : Option (List ℚ) :=
  match ksize with
  | 1 => some [1]
  | 3 => some [1/4, 1/2, 1/4]
  | 5 => some [1/16, 4/16, 6/16, 4/16, 1/16]
  | 7 => some [2/64, 7/64, 14/64, 18/64, 14/64, 7/64, 2/64]
  | _ => none

def kget (k : List ℚ) (n : ℕ) : ℚ := k.getD n 0

/-- `cv2.GaussianBlur(·, (ksize, ksize), 0)` on a single-channel `uint8`
image: separable convolution with the table kernel, `BORDER_REFLECT_101`,
one final rounding (the source's fixed-point pipeline rounds once after
both passes). -/
def gaussianBlur1 (ksize : ℕ) (g : Grid1) : Grid1 :=
  match smallGaussianTab ksize with
  | none => g
  | some k =>
    let r := ksize / 2
    ⟨g.h, g.w, fun y x =>
      ((cvRound (∑ dy ∈ Finset.range ksize, ∑ dx ∈ Finset.range ksize,
        kget k dy * kget k dx *
          g.pix (reflect101 g.h ((y : ℤ) + dy - r))
            (reflect101 g.w ((x : ℤ) + dx - r))) : ℤ) : ℚ)⟩

/-- `cv2.GaussianBlur` on a three-channel `uint8` image. -/
def gaussianBlur3 (ksize : ℕ) (g : Grid3) : Grid3 :=
  match smallGaussianTab ksize with
  | none => g
  | some k =>
    let r := ksize / 2
    ⟨g.h, g.w, fun y x c =>
      ((cvRound (∑ dy ∈ Finset.range ksize, ∑ dx ∈ Finset.range ksize,
        kget k dy * kget k dx *
          g.pix (reflect101 g.h ((y : ℤ) + dy - r))
            (reflect101 g.w ((x : ℤ) + dx - r)) c) : ℤ) : ℚ)⟩

/-- Translation down by `gap` rows (`cv2.warpAffine` with a pure
translation matrix; uncovered rows are zero-filled). -/
def shiftDown3 (gap : ℕ) (g : Grid3) : Grid3 :=
  ⟨g.h, g.w, fun y x c => if gap ≤ y then g.pix (y - gap) x c else 0⟩

def shiftDown1 (gap : ℕ) (g : Grid1) : Grid1 :=
  ⟨g.h, g.w, fun y x => if gap ≤ y then g.pix (y - gap) x else 0⟩

/-- `cv2.cvtColor(·, cv2.COLOR_BGR2HSV)` on one 8-bit pixel, per the
documented conversion (V = max; S = 255·(V−min)/V rounded; H the sector
formula, halved into `[0,180]`), in exact rational arithmetic. -/
def bgr2hsvPix (b g r : ℚ) : ℚ × ℚ × ℚ :=
  let v := max b (max g r)
  let mn := min b (min g r)
  let diff := v - mn
  let s : ℚ := if v = 0 then 0 else ((cvRound (255 * diff / v) : ℤ) : ℚ)
  let h0 : ℚ :=
    if diff = 0 then 0
    else if v = r then 60 * (g - b) / diff
    else if v = g then 120 + 60 * (b - r) / diff
    else 240 + 60 * (r - g) / diff
  let h1 := if h0 < 0 then h0 + 360 else h0
  (((cvRound (h1 / 2) : ℤ) : ℚ), s, v)

/-- `cv2.cvtColor(·, cv2.COLOR_HSV2BGR)` on one 8-bit pixel
(H in `[0,180]`, S and V in `[0,255]`), per the documented sector
formula, rounded per channel. -/
def hsv2bgrPix (hh s v : ℚ) : ℚ × ℚ × ℚ :=
  let h6 := hh / 30
  let sector := ⌊h6⌋
  let f := h6 - (sector : ℚ)
  let s1 := s / 255
  let p := v * (1 - s1)
  let q := v * (1 - s1 * f)
  let t := v * (1 - s1 * (1 - f))
  let bgr : ℚ × ℚ × ℚ :=
    if sector % 6 = 0 then (p, t, v)
    else if sector % 6 = 1 then (p, v, q)
    else if sector % 6 = 2 then (t, v, p)
    else if sector % 6 = 3 then (v, q, p)
    else if sector % 6 = 4 then (v, p, t)
    else (q, p, v)
  (((cvRound bgr.1 : ℤ) : ℚ), ((cvRound bgr.2.1 : ℤ) : ℚ),
   ((cvRound bgr.2.2 : ℤ) : ℚ))

/-- `ReflectionGenerator._desaturate`: BGR→HSV, scale S by `1 − amount`,
`np.clip(·,0,255).astype(np.uint8)` on every channel, HSV→BGR. -/
def desaturate (amount : ℚ) (img : Grid3) : Grid3 :=
  ⟨img.h, img.w, fun y x c =>
    let b := img.pix y x 0
    let g := img.pix y x 1
    let r := img.pix y x 2
    let hsv := bgr2hsvPix b g r
    let h1 := toByteClip hsv.1
    let s1 := toByteClip (hsv.2.1 * (1 - amount))
    let v1 := toByteClip hsv.2.2
    chan (hsv2bgrPix h1 s1 v1) c⟩

/-- `ReflectionGenerator._ease_out`. -/
def ease_out (t : ℚ) : ℚ := t * t

/-- The fade gradient rows of `create_reflection`: `np.zeros((h, w))`
with rows `y < fade_end = int(h·fade_height)` set to
`1 − ease_out(y / fade_end)`. -/
def fadeGradient (h : ℕ) (fade_height : ℚ) (y : ℕ) : ℚ :=
  let fade_end : ℤ := ratTrunc ((h : ℚ) * fade_height)
  if (y : ℤ) < fade_end then 1 - ease_out ((y : ℚ) / ((fade_end : ℤ) : ℚ))
  else 0

/-- The reflection alpha before blurring:
`(flip(mask)/255 · gradient · opacity · 255).astype(np.uint8)`. -/
def reflectionFadeMask (car_mask : Grid1) (h w : ℕ)
    (opacity fade_height : ℚ) : Grid1 :=
  ⟨h, w, fun y x =>
    toByteQ ((flip1 car_mask).pix y x / 255 *
      fadeGradient h fade_height y * opacity * 255)⟩

/-- `ReflectionGenerator.create_reflection`.

The fade gradient is `np.zeros((h, w))` with rows `y < int(h·fade_height)`
set to `1 − (y/fade_end)²`; the mask becomes
`(mask/255 · gradient · opacity · 255).astype(np.uint8)`; with `blur > 0`
both image and mask are Gaussian-blurred (aperture `2·blur+1`); the image
is then desaturated by 0.2 and, with `gap > 0`, both are shifted down.
(The source's gradient loop would raise `IndexError` for
`fade_height > 1`; theorems restrict to `fade_height ≤ 1`.) -/
def create_reflection (car_image : Grid3) (car_mask : Grid1)
    (opacity fade_height : ℚ) (blur : ℕ) (gap : ℕ) : Grid3 × Grid1 :=
  let h := car_image.h
  let w := car_image.w
  let reflection0 := flip3 car_image
  let rmask1 := reflectionFadeMask car_mask h w opacity fade_height
  let reflection1 :=
    if 0 < blur then gaussianBlur3 (blur * 2 + 1) reflection0 else reflection0
  let rmask2 :=
    if 0 < blur then gaussianBlur1 (blur * 2 + 1) rmask1 else rmask1
  let reflection2 := desaturate (1/5) reflection1
  let reflection3 := if 0 < gap then shiftDown3 gap reflection2 else reflection2
  let rmask3 := if 0 < gap then shiftDown1 gap rmask2 else rmask2
  (reflection3, rmask3)

/-- `g[r0:r1, :]` (all columns) for a three-channel image. -/
def slice3 (g : Grid3) (r0 r1 : ℤ) : Grid3 :=
  let rs := pyIdx g.h r0
  let re := pyIdx g.h r1
  ⟨re - rs, g.w, fun i j c => g.pix (rs + i) j c⟩

set_option linter.unusedVariables false in
/-- `ReflectionGenerator.create_reflection_extended`.  The fade power
`t ** 0.8` is the abstract parameter `rpow08`.  (`background_height` is
accepted and ignored, exactly as in the source.) -/
def create_reflection_extended (rpow08 : ℚ → ℚ) (car_image : Grid3)
    (car_mask : Grid1) (background_height : ℕ) (car_y_position : ℤ)
    (opacity max_reflection_height : ℚ) : Grid3 × Grid1 × ℤ :=
  let car_h := car_image.h
  let car_w := car_image.w
  if _hsil : silhouette car_mask = ∅ then
    (⟨car_h, car_w, fun _ _ _ => 0⟩, ⟨car_h, car_w, fun _ _ => 0⟩, 0)
  else
    have hne : (silhouette car_mask).Nonempty :=
      Finset.nonempty_iff_ne_empty.mpr _hsil
    let y_min := ((silhouette car_mask).image Prod.fst).min' (hne.image _)
    let y_max := ((silhouette car_mask).image Prod.fst).max' (hne.image _)
    let actual_height := y_max - y_min
    let reflection_height : ℤ :=
      ratTrunc ((actual_height : ℚ) * max_reflection_height)
    let bottom_portion :=
      slice3 car_image ((y_max : ℤ) - reflection_height) y_max
    let bottom_mask :=
      slice1 car_mask ((y_max : ℤ) - reflection_height) y_max 0 car_mask.w
    if bottom_portion.h * bottom_portion.w = 0 then
      (⟨car_h, car_w, fun _ _ _ => 0⟩, ⟨car_h, car_w, fun _ _ => 0⟩, 0)
    else
      let reflection := flip3 bottom_portion
      let rmask := flip1 bottom_mask
      let ref_h := reflection.h
      let gradient : ℕ → ℚ := fun y => 1 - rpow08 ((y : ℚ) / (ref_h : ℚ))
      let rmask2 : Grid1 :=
        ⟨ref_h, car_w, fun y x =>
          toByteQ (rmask.pix y x / 255 * gradient y * opacity * 255)⟩
      let reflection2 := gaussianBlur3 3 reflection
      let reflection3 := desaturate (1/4) reflection2
      (reflection3, rmask2, car_y_position + (car_h : ℤ))

theorem reflect101_lt {n : ℕ} (hn : 0 < n) (i : ℤ) : reflect101 n i < n := by
  unfold reflect101
  split
  · omega
  · have hn2 : 2 ≤ n := by omega
    have hp : (0 : ℤ) < 2 * n - 2 := by
      have : (2 : ℤ) ≤ n := by exact_mod_cast hn2
      omega
    have h0 : 0 ≤ i % (2 * (n : ℤ) - 2) := Int.emod_nonneg _ (by omega)
    have h1 : i % (2 * (n : ℤ) - 2) < 2 * (n : ℤ) - 2 :=
      Int.emod_lt_of_pos _ hp
    dsimp only
    split
    · omega
    · omega

theorem cvRound_zero : cvRound 0 = 0 := by
  norm_num [cvRound]

theorem toByteQ_zero : toByteQ 0 = 0 := by
  norm_num [toByteQ, ratTrunc]

/-- A blur (of any aperture) of an image that is zero on its bounds is
zero on its bounds. -/
theorem gaussianBlur1_zero (ksize : ℕ) (g : Grid1)
    (h0 : ∀ i j, i < g.h → j < g.w → g.pix i j = 0) :
    ∀ i j, i < g.h → j < g.w → (gaussianBlur1 ksize g).pix i j = 0 := by
  intro i j hi hj
  unfold gaussianBlur1 at *
  cases hk : smallGaussianTab ksize with
  | none => simp only [hk]; exact h0 i j hi hj
  | some k =>
    simp only [hk]
    have hsum : (∑ dy ∈ Finset.range ksize, ∑ dx ∈ Finset.range ksize,
        kget k dy * kget k dx *
          g.pix (reflect101 g.h ((i : ℤ) + dy - (ksize / 2 : ℕ)))
            (reflect101 g.w ((j : ℤ) + dx - (ksize / 2 : ℕ)))) = 0 := by
      apply Finset.sum_eq_zero
      intro dy _
      apply Finset.sum_eq_zero
      intro dx _
      rw [h0 _ _ (reflect101_lt (by omega) _) (reflect101_lt (by omega) _)]
      ring
    rw [hsum, cvRound_zero]
    norm_num

theorem gaussianBlur1_h (ksize : ℕ) (g : Grid1) :
    (gaussianBlur1 ksize g).h = g.h := by
  unfold gaussianBlur1
  cases smallGaussianTab ksize <;> rfl

theorem gaussianBlur1_w (ksize : ℕ) (g : Grid1) :
    (gaussianBlur1 ksize g).w = g.w := by
  unfold gaussianBlur1
  cases smallGaussianTab ksize <;> rfl

theorem gaussianBlur3_h (ksize : ℕ) (g : Grid3) :
    (gaussianBlur3 ksize g).h = g.h := by
  unfold gaussianBlur3
  cases smallGaussianTab ksize <;> rfl

theorem gaussianBlur3_w (ksize : ℕ) (g : Grid3) :
    (gaussianBlur3 ksize g).w = g.w := by
  unfold gaussianBlur3
  cases smallGaussianTab ksize <;> rfl

theorem fadeGradient_nonneg (h : ℕ) (f : ℚ) (y : ℕ) :
    0 ≤ fadeGradient h f y := by
  simp only [fadeGradient]
  split
  · next hy =>
    have hfe : (1 : ℤ) ≤ ratTrunc ((h : ℚ) * f) := by omega
    have hfe0 : (0 : ℚ) < ((ratTrunc ((h : ℚ) * f) : ℤ) : ℚ) := by
      exact_mod_cast hfe
    have ht0 : (0 : ℚ) ≤ (y : ℚ) / ((ratTrunc ((h : ℚ) * f) : ℤ) : ℚ) :=
      div_nonneg (by positivity) hfe0.le
    have ht1 : (y : ℚ) / ((ratTrunc ((h : ℚ) * f) : ℤ) : ℚ) < 1 := by
      rw [div_lt_one hfe0]
      exact_mod_cast hy
    simp only [ease_out]
    nlinarith
  · exact le_refl 0

theorem fadeGradient_le_one (h : ℕ) (f : ℚ) (y : ℕ) :
    fadeGradient h f y ≤ 1 := by
  simp only [fadeGradient]
  split
  · simp only [ease_out]
    nlinarith [mul_self_nonneg ((y : ℚ) / ((ratTrunc ((h : ℚ) * f) : ℤ) : ℚ))]
  · norm_num

theorem fadeGradient_antitone (h : ℕ) (f : ℚ) {y1 y2 : ℕ} (hy : y1 ≤ y2) :
    fadeGradient h f y2 ≤ fadeGradient h f y1 := by
  by_cases h2 : (y2 : ℤ) < ratTrunc ((h : ℚ) * f)
  · have h1 : (y1 : ℤ) < ratTrunc ((h : ℚ) * f) := by omega
    simp only [fadeGradient, ease_out]
    rw [if_pos h2, if_pos h1]
    have hfe : (1 : ℤ) ≤ ratTrunc ((h : ℚ) * f) := by omega
    have hfe0 : (0 : ℚ) < ((ratTrunc ((h : ℚ) * f) : ℤ) : ℚ) := by
      exact_mod_cast hfe
    have hle : (y1 : ℚ) / ((ratTrunc ((h : ℚ) * f) : ℤ) : ℚ) ≤
        (y2 : ℚ) / ((ratTrunc ((h : ℚ) * f) : ℤ) : ℚ) := by
      exact (div_le_div_iff_of_pos_right hfe0).mpr (by exact_mod_cast hy)
    have h0 : (0 : ℚ) ≤ (y1 : ℚ) / ((ratTrunc ((h : ℚ) * f) : ℤ) : ℚ) :=
      div_nonneg (by positivity) hfe0.le
    nlinarith
  · have hz : fadeGradient h f y2 = 0 := by
      simp only [fadeGradient]
      rw [if_neg h2]
    rw [hz]
    exact fadeGradient_nonneg h f y1

theorem fadeGradient_of_le (h : ℕ) (f : ℚ) (y : ℕ)
    (hy : ratTrunc ((h : ℚ) * f) ≤ (y : ℤ)) : fadeGradient h f y = 0 := by
  simp only [fadeGradient]
  rw [if_neg (not_lt.mpr hy)]

theorem toByteQ_mono {p q : ℚ} (h0 : 0 ≤ p) (hpq : p ≤ q) (hq : q < 256) :
    toByteQ p ≤ toByteQ q := by
  rw [toByteQ_eq_trunc h0 (lt_of_le_of_lt hpq hq),
      toByteQ_eq_trunc (le_trans h0 hpq) hq]
  exact_mod_cast ratTrunc_mono h0 hpq

/-- **C6 (amended).**  On an empty subject mask, `create_reflection`
returns an all-zero reflection *mask* of the subject's dimensions and a
reflection *image* of the subject's dimensions (the image is the
flipped/blurred/desaturated subject image, not zeroed — see the
counterexample), without failing, for every `fade_height ≤ 1` (beyond
that, the source's gradient loop raises `IndexError` independently of the
mask, so the no-failure statement is out of scope there);
`create_reflection_extended` returns an all-zero image, an all-zero mask
and position 0, without failing. -/
theorem C6_empty_mask_reflection :
    (∀ (img : Grid3) (mask : Grid1) (opacity fade_height : ℚ)
        (blur gap : ℕ),
      mask.h = img.h → mask.w = img.w → fade_height ≤ 1 →
      (∀ i j, i < mask.h → j < mask.w → mask.pix i j = 0) →
      (create_reflection img mask opacity fade_height blur gap).1.h = img.h ∧
      (create_reflection img mask opacity fade_height blur gap).1.w = img.w ∧
      (create_reflection img mask opacity fade_height blur gap).2.h = img.h ∧
      (create_reflection img mask opacity fade_height blur gap).2.w = img.w ∧
      ∀ i j, i < img.h → j < img.w →
        (create_reflection img mask opacity fade_height blur gap).2.pix i j
          = 0) ∧
    (∀ (rpow08 : ℚ → ℚ) (img : Grid3) (mask : Grid1) (bgh : ℕ) (cy : ℤ)
        (opacity mrh : ℚ),
      (∀ i j, i < mask.h → j < mask.w → mask.pix i j = 0) →
      create_reflection_extended rpow08 img mask bgh cy opacity mrh =
        (⟨img.h, img.w, fun _ _ _ => 0⟩, ⟨img.h, img.w, fun _ _ => 0⟩, 0)) := by
  constructor
  · intro img mask opacity fade_height blur gap hdh hdw _hf hemp
    have hM : ∀ i j, i < img.h → j < img.w →
        (reflectionFadeMask mask img.h img.w opacity fade_height).pix i j
          = 0 := by
      intro i j hi hj
      simp only [reflectionFadeMask, flip1]
      rw [hemp (mask.h - 1 - i) j (by omega) (by omega)]
      simp [toByteQ_zero]
    have hR2 : ∀ i j, i < img.h → j < img.w →
        (if 0 < blur then
            gaussianBlur1 (blur * 2 + 1)
              (reflectionFadeMask mask img.h img.w opacity fade_height)
          else reflectionFadeMask mask img.h img.w opacity
            fade_height).pix i j = 0 := by
      intro i j hi hj
      split
      · exact gaussianBlur1_zero _ _ hM i j hi hj
      · exact hM i j hi hj
    refine ⟨?_, ?_, ?_, ?_, ?_⟩
    · simp only [create_reflection]
      split_ifs <;>
        simp [shiftDown3, desaturate, flip3, gaussianBlur3_h]
    · simp only [create_reflection]
      split_ifs <;>
        simp [shiftDown3, desaturate, flip3, gaussianBlur3_w]
    · simp only [create_reflection]
      split_ifs <;>
        simp [shiftDown1, reflectionFadeMask, gaussianBlur1_h]
    · simp only [create_reflection]
      split_ifs <;>
        simp [shiftDown1, reflectionFadeMask, gaussianBlur1_w]
    · intro i j hi hj
      simp only [create_reflection]
      split
      · simp only [shiftDown1]
        split
        · exact hR2 _ _ (by omega) hj
        · rfl
      · exact hR2 i j hi hj
  · intro rpow08 img mask bgh cy opacity mrh hemp
    simp only [create_reflection_extended]
    rw [dif_pos (silhouette_empty_of_zero
      (fun i j hi hj => le_of_eq (hemp i j hi hj)))]

/-- Witness for the amended C6: a 2×2 uniform image with an all-zero
mask. -/
theorem C6_empty_mask_reflection_witness :
    (create_reflection ⟨2, 2, fun _ _ _ => 5⟩ ⟨2, 2, fun _ _ => 0⟩ (1/5)
      (1/2) 2 0).2.pix 0 0 = 0 ∧
    create_reflection_extended (fun q => q) ⟨2, 2, fun _ _ _ => 5⟩
        ⟨2, 2, fun _ _ => 0⟩ 10 0 (1/5) (2/5) =
      (⟨2, 2, fun _ _ _ => 0⟩, ⟨2, 2, fun _ _ => 0⟩, 0) :=
  ⟨(C6_empty_mask_reflection.1 ⟨2, 2, fun _ _ _ => 5⟩ ⟨2, 2, fun _ _ => 0⟩
      (1/5) (1/2) 2 0 rfl rfl (by norm_num) (fun _ _ _ _ => rfl)).2.2.2.2 0 0
      (by norm_num) (by norm_num),
   C6_empty_mask_reflection.2 _ _ _ _ _ _ _ (fun _ _ _ _ => rfl)⟩

/-- **C6 counterexample.**  The claim says the reflection *image* is
all-zero on an empty mask.  `create_reflection` never zeroes the image:
with a uniform gray subject (all channels 10) and an all-zero mask, the
returned reflection image still carries the value 10 at pixel (0,0). -/
theorem C6_counterexample :
    (create_reflection ⟨4, 4, fun _ _ _ => 10⟩ ⟨4, 4, fun _ _ => 0⟩
      (1/5) (1/2) 2 0).1.pix 0 0 ⟨0, by norm_num⟩ = 10 ∧ (10 : ℚ) ≠ 0 := by
  refine ⟨?_, by norm_num⟩
  simp only [create_reflection, desaturate, flip3, gaussianBlur3,
    smallGaussianTab, bgr2hsvPix, hsv2bgrPix, chan, kget]
  norm_num [Finset.sum_range_succ, List.getD, reflect101, cvRound,
    toByteClip, clip255, ratTrunc]

set_option maxHeartbeats 1600000 in
set_option maxRecDepth 4096 in
/-- **C7 counterexample.**  The claim says every row at or beyond
`fade_height·height` of the reflection mask is fully transparent.  With
the default blur radius 2, the 5×5 Gaussian spreads alpha past the fade
line: on a 12×5 fully-opaque mask with `fade_height = 1/2` the fade row
is 6, yet row 7 of the produced mask holds 1, not 0. -/
theorem C7_counterexample :
    ratTrunc ((12 : ℚ) * (1/2)) = 6 ∧
    (create_reflection ⟨12, 5, fun _ _ _ => 0⟩ ⟨12, 5, fun _ _ => 255⟩
      (1/5) (1/2) 2 0).2.pix 7 0 = 1 := by
  constructor
  · norm_num [ratTrunc]
  · simp only [create_reflection, reflectionFadeMask, flip1,
      gaussianBlur1, smallGaussianTab, kget, fadeGradient, ease_out]
    norm_num [Finset.sum_range_succ, List.getD, reflect101,
      toByteQ, ratTrunc, show Int.toNat 5 = 5 from rfl]
    norm_num [cvRound, Int.fract]

set_option linter.unusedVariables false in
/-- **C7 (amended).**  With blurring disabled (`blur = 0`, `gap = 0`), for
a fully-opaque mask covering the canvas, `0 ≤ opacity ≤ 1` and
`fade_height ≤ 1`, the reflection mask is non-increasing down every
column and every row at or beyond `int(fade_height·height)` is exactly 0.
(With the default blur of 2 the Gaussian spreads nonzero alpha up to two
rows past that line — see the counterexample.) -/
theorem C7_fade_monotone_no_blur (img : Grid3) (opacity fade_height : ℚ)
    (hop0 : 0 ≤ opacity) (hop1 : opacity ≤ 1) (hf : fade_height ≤ 1) :
    (∀ j y1 y2, y1 ≤ y2 →
      (create_reflection img ⟨img.h, img.w, fun _ _ => 255⟩ opacity
        fade_height 0 0).2.pix y2 j ≤
      (create_reflection img ⟨img.h, img.w, fun _ _ => 255⟩ opacity
        fade_height 0 0).2.pix y1 j) ∧
    (∀ (j y : ℕ), ratTrunc ((img.h : ℚ) * fade_height) ≤ (y : ℤ) →
      (create_reflection img ⟨img.h, img.w, fun _ _ => 255⟩ opacity
        fade_height 0 0).2.pix y j = 0) := by
  have hpix : ∀ y j,
      (create_reflection img ⟨img.h, img.w, fun _ _ => 255⟩ opacity
        fade_height 0 0).2.pix y j =
      toByteQ (fadeGradient img.h fade_height y * (opacity * 255)) := by
    intro y j
    simp only [create_reflection, reflectionFadeMask, flip1]
    norm_num
    ring_nf
  have harg0 : ∀ y, 0 ≤ fadeGradient img.h fade_height y * (opacity * 255) :=
    fun y => mul_nonneg (fadeGradient_nonneg _ _ _) (by positivity)
  have harg255 : ∀ y,
      fadeGradient img.h fade_height y * (opacity * 255) ≤ 255 := by
    intro y
    have h1 := fadeGradient_le_one img.h fade_height y
    have h0 := fadeGradient_nonneg img.h fade_height y
    nlinarith
  constructor
  · intro j y1 y2 hy
    rw [hpix, hpix]
    apply toByteQ_mono (harg0 y2) ?_ (lt_of_le_of_lt (harg255 y1) (by norm_num))
    have := fadeGradient_antitone img.h fade_height hy
    nlinarith [fadeGradient_nonneg img.h fade_height y2]
  · intro j y hy
    rw [hpix, fadeGradient_of_le img.h fade_height y hy]
    simp [toByteQ_zero]

/-- Witness for the amended C7 on a 4×4 canvas with the default opacity
1/5 and fade height 1/2. -/
theorem C7_fade_monotone_no_blur_witness :
    (create_reflection ⟨4, 4, fun _ _ _ => 0⟩ ⟨4, 4, fun _ _ => 255⟩
      (1/5) (1/2) 0 0).2.pix 3 0 ≤
    (create_reflection ⟨4, 4, fun _ _ _ => 0⟩ ⟨4, 4, fun _ _ => 255⟩
      (1/5) (1/2) 0 0).2.pix 1 0 ∧
    (create_reflection ⟨4, 4, fun _ _ _ => 0⟩ ⟨4, 4, fun _ _ => 255⟩
      (1/5) (1/2) 0 0).2.pix 2 0 = 0 :=
  ⟨(C7_fade_monotone_no_blur ⟨4, 4, fun _ _ _ => 0⟩ (1/5) (1/2)
      (by norm_num) (by norm_num) (by norm_num)).1 0 1 3 (by norm_num),
   (C7_fade_monotone_no_blur ⟨4, 4, fun _ _ _ => 0⟩ (1/5) (1/2)
      (by norm_num) (by norm_num) (by norm_num)).2 0 2
      (by norm_num [ratTrunc])⟩

theorem blend_layer_h (base layer : Grid3) (mask : Grid1) (x y : ℤ) :
    (blend_layer base layer mask x y).h = base.h := by
  simp only [blend_layer]
  split <;> rfl

theorem blend_layer_w (base layer : Grid3) (mask : Grid1) (x y : ℤ) :
    (blend_layer base layer mask x y).w = base.w := by
  simp only [blend_layer]
  split <;> rfl

theorem cfReflStep_h (bg : Grid3) (o1 : Option Grid3) (o2 : Option Grid1)
    (x y : ℤ) : (cfReflStep bg o1 o2 x y).h = bg.h := by
  cases o1 <;> cases o2 <;> simp [cfReflStep, blend_layer_h]

theorem cfReflStep_w (bg : Grid3) (o1 : Option Grid3) (o2 : Option Grid1)
    (x y : ℤ) : (cfReflStep bg o1 o2 x y).w = bg.w := by
  cases o1 <;> cases o2 <;> simp [cfReflStep, blend_layer_w]

/-- The spec's multiplicative darken rule for shadow layers, written from
the spec's words: `result = result · (1 − intensity/255)`, per channel. -/
def darkenBlendSpec (res : Grid3) (intensity : Grid1) : Grid3 :=
  ⟨res.h, res.w, fun i j c => res.pix i j c * (1 - intensity.pix i j / 255)⟩

/-- Spec-side shadow step of the compose order: a missing or degenerate
(empty) layer degrades gracefully and is skipped; a present layer is
blended with the darken rule. -/
def specShadowStep (res : Grid3) (os : Option Grid1) : Grid3 :=
  match os with
  | some s => if s.h * s.w = 0 then res else darkenBlendSpec res s
  | none => res

/-- Spec-side darken step without the emptiness check, mirroring
`composite_shadows` (which always blends a present layer). -/
def specShadowDarken (res : Grid3) (os : Option Grid1) : Grid3 :=
  match os with
  | some s => darkenBlendSpec res s
  | none => res

/-- The compose order mandated by the spec, written from the spec's
words: background → reflection → drop shadow → ambient shadow → contact
shadow → subject, every shadow blended by the multiplicative darken
rule, then clamped to bytes. -/
def composeSpec (background car_image : Grid3) (car_mask : Grid1)
    (shadows : Shadows) (reflection : Option Grid3)
    (reflection_mask : Option Grid1) (car_position : Option (ℤ × ℤ)) :
    Grid3 :=
  let pos : ℤ × ℤ :=
    car_position.getD
      (cfDefaultPos background.w background.h car_image.w car_image.h)
  let x := pos.1
  let y := pos.2
  let s1 := cfReflStep background reflection reflection_mask x
    (y + (car_image.h : ℤ))
  let s2 := specShadowStep s1 shadows.drop
  let s3 := specShadowStep s2 shadows.ambient
  let s4 := specShadowStep s3 shadows.contact
  let s5 := blend_layer s4 car_image car_mask x y
  ⟨s5.h, s5.w, fun i j c => toByteClip (s5.pix i j c)⟩

/-- Spec-side order for `composite_shadows`: drop → ambient → contact
with the darken rule, then clamp. -/
def composeShadowsSpec (background : Grid3) (shadows : Shadows) : Grid3 :=
  let r1 := specShadowDarken background shadows.drop
  let r2 := specShadowDarken r1 shadows.ambient
  let r3 := specShadowDarken r2 shadows.contact
  ⟨r3.h, r3.w, fun i j c => toByteClip (r3.pix i j c)⟩

theorem blend_shadow_eq_darken (resize1 : Grid1 → ℕ → ℕ → Grid1)
    (base : Grid3) (s : Grid1) (h1 : s.h = base.h) (h2 : s.w = base.w) :
    blend_shadow resize1 base s = darkenBlendSpec base s := by
  simp [blend_shadow, darkenBlendSpec, h1, h2]

theorem specShadowStep_h (r : Grid3) (os : Option Grid1) :
    (specShadowStep r os).h = r.h := by
  cases os with
  | none => rfl
  | some s =>
    simp only [specShadowStep]
    split <;> rfl

theorem specShadowStep_w (r : Grid3) (os : Option Grid1) :
    (specShadowStep r os).w = r.w := by
  cases os with
  | none => rfl
  | some s =>
    simp only [specShadowStep]
    split <;> rfl

theorem cfShadowStep_eq_spec (resize1 : Grid1 → ℕ → ℕ → Grid1) (r : Grid3)
    (os : Option Grid1) {H W : ℕ} (hrh : r.h = H) (hrw : r.w = W)
    (hd : ∀ s, os = some s → s.h = H ∧ s.w = W) :
    cfShadowStep resize1 r os = specShadowStep r os := by
  cases os with
  | none => rfl
  | some s =>
    obtain ⟨h1, h2⟩ := hd s rfl
    simp only [cfShadowStep, specShadowStep]
    split
    · rfl
    · exact blend_shadow_eq_darken resize1 r s (by omega) (by omega)

theorem shadowBlendStep_multiply (res : Grid3) (os : Option Grid1) :
    shadowBlendStep "multiply" res os = specShadowDarken res os := by
  cases os with
  | none => rfl
  | some s => simp [shadowBlendStep, specShadowDarken, darkenBlendSpec]

/-- **C1.**  Compositing follows the mandated fixed bottom-to-top order —
background, reflection, drop shadow, ambient shadow, contact shadow,
subject — and every shadow layer is blended onto the accumulated result
by the multiplicative darken rule `result · (1 − intensity/255)`, per
channel: `composite_final` (without output resizing, with every provided
shadow layer canvas-sized so `_blend_shadow`'s resize is a no-op) equals
the spec-order composition `composeSpec`, and `composite_shadows` in
multiply mode equals the spec-order `composeShadowsSpec`, for all
inputs. -/
theorem C1_composite_order :
    (∀ (resize3 : Grid3 → ℕ → ℕ → Grid3) (resize1 : Grid1 → ℕ → ℕ → Grid1)
        (background car_image : Grid3) (car_mask : Grid1)
        (shadows : Shadows) (reflection : Option Grid3)
        (reflection_mask : Option Grid1) (car_position : Option (ℤ × ℤ)),
      (∀ s, shadows.drop = some s →
        s.h = background.h ∧ s.w = background.w) →
      (∀ s, shadows.ambient = some s →
        s.h = background.h ∧ s.w = background.w) →
      (∀ s, shadows.contact = some s →
        s.h = background.h ∧ s.w = background.w) →
      composite_final resize3 resize1 background car_image car_mask shadows
          reflection reflection_mask car_position none =
        composeSpec background car_image car_mask shadows reflection
          reflection_mask car_position) ∧
    (∀ (background : Grid3) (shadows : Shadows),
      composite_shadows background shadows "multiply" =
        composeShadowsSpec background shadows) := by
  constructor
  · intro rz3 rz1 bg car mask shadows refl rmask pos hd ha hc
    simp only [composite_final, composeSpec]
    rw [cfShadowStep_eq_spec rz1 _ shadows.drop (cfReflStep_h bg refl rmask _ _)
        (cfReflStep_w bg refl rmask _ _) hd]
    rw [cfShadowStep_eq_spec rz1 _ shadows.ambient
        (by rw [specShadowStep_h, cfReflStep_h])
        (by rw [specShadowStep_w, cfReflStep_w]) ha]
    rw [cfShadowStep_eq_spec rz1 _ shadows.contact
        (by rw [specShadowStep_h, specShadowStep_h, cfReflStep_h])
        (by rw [specShadowStep_w, specShadowStep_w, cfReflStep_w]) hc]
  · intro bg shadows
    simp only [composite_shadows, composeShadowsSpec,
      shadowBlendStep_multiply]

/-- Witness for C1 on small concrete layers (all three shadows present
and canvas-sized, reflection present, explicit position). -/
theorem C1_composite_order_witness :
    composite_final (fun g _ _ => g) (fun g _ _ => g)
        ⟨2, 2, fun _ _ _ => 100⟩ ⟨1, 1, fun _ _ _ => 50⟩
        ⟨1, 1, fun _ _ => 255⟩
        ⟨some ⟨2, 2, fun _ _ => 40⟩, some ⟨2, 2, fun _ _ => 30⟩,
         some ⟨2, 2, fun _ _ => 20⟩⟩
        (some ⟨1, 1, fun _ _ _ => 60⟩) (some ⟨1, 1, fun _ _ => 128⟩)
        (some (0, 0)) none =
      composeSpec ⟨2, 2, fun _ _ _ => 100⟩ ⟨1, 1, fun _ _ _ => 50⟩
        ⟨1, 1, fun _ _ => 255⟩
        ⟨some ⟨2, 2, fun _ _ => 40⟩, some ⟨2, 2, fun _ _ => 30⟩,
         some ⟨2, 2, fun _ _ => 20⟩⟩
        (some ⟨1, 1, fun _ _ _ => 60⟩) (some ⟨1, 1, fun _ _ => 128⟩)
        (some (0, 0)) ∧
    composite_shadows ⟨2, 2, fun _ _ _ => 100⟩
        ⟨some ⟨2, 2, fun _ _ => 40⟩, none, some ⟨2, 2, fun _ _ => 20⟩⟩
        "multiply" =
      composeShadowsSpec ⟨2, 2, fun _ _ _ => 100⟩
        ⟨some ⟨2, 2, fun _ _ => 40⟩, none, some ⟨2, 2, fun _ _ => 20⟩⟩ :=
  ⟨C1_composite_order.1 _ _ _ _ _ _ _ _ _
      (fun s hs => by cases hs; exact ⟨rfl, rfl⟩)
      (fun s hs => by cases hs; exact ⟨rfl, rfl⟩)
      (fun s hs => by cases hs; exact ⟨rfl, rfl⟩),
   C1_composite_order.2 _ _⟩

end Spyne
